import Mathlib

/-!
Shallow embedding of the task-collection engine of
`src/team_task_dashboard_react_single_file.jsx` (a single-file React team
task dashboard): the task data model, the `upsertTask` store operation and
the `TaskForm.save` entry point that drives it, the derived
filter/search/sort view `visibleTasks`, and the CSV export/import codec
(`exportCSV`, `importCSV`, `splitCSVLine`).

Modelling conventions:
* JavaScript strings-or-`undefined` are `Option String` (`none` = `undefined`).
* A JS object field that may be *absent* from a payload object is an outer
  `Option` layer (`none` = key absent); `TaskForm.save` always passes the
  `id` key, possibly with value `undefined`, so `Payload.id` is
  `Option (Option String)`.
* Timestamps (`now()`) and fresh ids (`uid()`) are passed in as parameters,
  since they are environment inputs.
* `Array.prototype.sort` is modelled as a stable merge sort (`List.mergeSort`)
  driven by `cmp a b ≤ 0`, the guarantee ECMAScript gives for consistent
  comparators.  For comparators that never report a tie this can reorder
  equal-key elements, exactly as the merge phases of real engines also do;
  ECMAScript leaves the order implementation-defined for such comparators.
* Text processing (CSV codec) works over `List Char`; JS UTF-16 code-unit
  string comparison is modelled as code-point lexicographic comparison,
  which agrees with it on all characters of the basic multilingual plane.
-/

namespace TTD

/-- JavaScript string value that may be `undefined` (`none`). -/
abbrev JStr := Option String

/-- Models the JS idiom `x || d` for a string-or-undefined `x` and a
non-empty-string-free default `d`: `undefined` and `""` are falsy. -/
def jsOr (x : JStr) (d : String) : String :=
  match x with
  | none => d
  | some s => if s = "" then d else s

/-- Character class removed by `String.prototype.trim` (ECMAScript
WhiteSpace ∪ LineTerminator). -/
def isJsSpace (c : Char) : Bool :=
  let n := c.toNat
  n = 9 || n = 10 || n = 11 || n = 12 || n = 13 || n = 32 || n = 160 ||
    n = 5760 || (8192 ≤ n && n ≤ 8202) || n = 8232 || n = 8233 ||
    n = 8239 || n = 8287 || n = 12288 || n = 65279

/-- Models JS `s.trim()`. -/
def jsTrim (s : String) : String :=
  String.mk (((s.data.dropWhile isJsSpace).reverse.dropWhile isJsSpace).reverse)

/-- Models JS `String.prototype.toLowerCase` on the ASCII range (the only
case mapping exercised by this program's data). -/
def jsToLowerChar (c : Char) : Char :=
  if 'A' ≤ c ∧ c ≤ 'Z' then Char.ofNat (c.toNat + 32) else c

/-- Models JS `s.toLowerCase()`. -/
def jsToLower (s : String) : String :=
  String.mk (s.data.map jsToLowerChar)

/-- Does the first list start with the second one? -/
def startsWithCL : List Char → List Char → Bool
  | _, [] => true
  | [], _ :: _ => false
  | a :: as, b :: bs => a == b && startsWithCL as bs

/-- Substring occurrence test over char lists. -/
def includesCL : List Char → List Char → Bool
  | [], needle => needle.isEmpty
  | a :: t, needle => startsWithCL (a :: t) needle || includesCL t needle

/-- Models JS `s.includes(q)`. -/
def jsIncludes (s q : String) : Bool :=
  includesCL s.data q.data

/-- Code-point lexicographic order on char lists; models the JS `<`/`>`
relational operators on strings (UTF-16 code-unit order, which agrees with
code-point order on the basic multilingual plane). -/
def listCharLt : List Char → List Char → Bool
  | [], [] => false
  | [], _ :: _ => true
  | _ :: _, [] => false
  | a :: as, b :: bs =>
    if a.toNat < b.toNat then true
    else if b.toNat < a.toNat then false
    else listCharLt as bs

/-- Models JS `s < t` on strings. -/
def strLt (s t : String) : Bool := listCharLt s.data t.data

/-- Models JS `s > t` on strings. -/
def strGt (s t : String) : Bool := strLt t s

/-- Task record (lines 34–45 of the source give the intended shape).  Every
field holds a JS value that may be `undefined`: the import path and the
create path of `upsertTask` can both produce records with `undefined`
fields. -/
structure Task where
  id : JStr
  title : JStr
  description : JStr
  assignee : JStr
  priority : JStr
  status : JStr
  dueDate : JStr
  createdAt : JStr
  updatedAt : JStr
deriving DecidableEq

/-- A payload object passed to `upsertTask`.  For each field the outer
`Option` records whether the key is present on the object (spread `...payload`
copies only present keys).  The `id` key additionally distinguishes a
present-but-`undefined` value, because `TaskForm.save` always passes
`id: initial?.id`, which is `undefined` when creating. -/
structure Payload where
  id : Option JStr
  title : Option String
  description : Option String
  assignee : Option String
  priority : Option String
  status : Option String
  dueDate : Option String
  createdAt : Option String
  updatedAt : Option String
deriving DecidableEq

/-- The value of `payload.id` as read by JS (reading an absent key yields
`undefined`). -/
def payloadIdVal (p : Payload) : JStr :=
  p.id.getD none

/-- Truthiness of `payload.id` (`if (!payload.id)`). -/
def idTruthy (p : Payload) : Bool :=
  match payloadIdVal p with
  | none => false
  | some s => s != ""

/-- Truthiness of `payload.title` (`if (!payload.title)`). -/
def titleTruthy (p : Payload) : Bool :=
  match p.title with
  | none => false
  | some s => s != ""

/-- Errors surfaced by the component (via `alert`) or raised as uncaught
exceptions.  `ParseError` models an uncaught `JSON.parse` exception inside
the import `onload` handler. -/
inductive DashError
  | ValidationError
  | NotFoundError
  | EmptyImportError
  | ParseError
deriving DecidableEq

/-- The create branch of `upsertTask`:
`{ id: uid(), createdAt: now(), updatedAt: now(), ...payload }`.
Spread copies every key present on `payload`, including an `id` key whose
value is `undefined`. -/
def createTask (nowv fresh : String) (p : Payload) : Task :=
  { id := p.id.getD (some fresh),
    createdAt := some (p.createdAt.getD nowv),
    updatedAt := some (p.updatedAt.getD nowv),
    title := p.title,
    description := p.description,
    assignee := p.assignee,
    priority := p.priority,
    status := p.status,
    dueDate := p.dueDate }

/-- The update branch merge of `upsertTask`:
`{ ...x, ...payload, updatedAt: now() }`. -/
def mergeInto (nowv : String) (p : Payload) (x : Task) : Task :=
  { id := p.id.getD x.id,
    title := match p.title with | some s => some s | none => x.title,
    description := match p.description with | some s => some s | none => x.description,
    assignee := match p.assignee with | some s => some s | none => x.assignee,
    priority := match p.priority with | some s => some s | none => x.priority,
    status := match p.status with | some s => some s | none => x.status,
    dueDate := match p.dueDate with | some s => some s | none => x.dueDate,
    createdAt := match p.createdAt with | some s => some s | none => x.createdAt,
    updatedAt := some nowv }

/-- Operation `upsertTask(payload)` acting on the task collection (lines 95–110):
bails out silently on a falsy `title`; creates (prepending) when `payload.id`
is falsy; otherwise maps the merge over the collection. -/
def upsertTask (nowv fresh : String) (p : Payload) (tasks : List Task) : List Task :=
  if titleTruthy p then
    if idTruthy p then
      tasks.map (fun x => if x.id = payloadIdVal p then mergeInto nowv p x else x)
    else
      createTask nowv fresh p :: tasks
  else
    tasks

/-- The payload object built by `TaskForm.save` (line 343):
`{ id: initial?.id, title: title.trim(), description: description.trim(),
assignee, priority, status, dueDate }`. -/
def formPayload (initial : Option Task)
    (title description assignee priority status dueDate : String) : Payload :=
  { id := some (initial.bind Task.id),
    title := some (jsTrim title),
    description := some (jsTrim description),
    assignee := some assignee,
    priority := some priority,
    status := some status,
    dueDate := some dueDate,
    createdAt := none,
    updatedAt := none }

/-- Entry point `TaskForm.save` (lines 341–344) followed by `upsertTask`: rejects a
blank (empty after trim) title with the blocking `alert('Title is
required')`, surfaced here as `ValidationError`; otherwise hands the payload
to `upsertTask` and returns the new collection. -/
def saveForm (nowv fresh : String) (initial : Option Task)
    (title description assignee priority status dueDate : String)
    (tasks : List Task) : Except DashError (List Task) :=
  if jsTrim title = "" then
    Except.error DashError.ValidationError
  else
    Except.ok (upsertTask nowv fresh
      (formPayload initial title description assignee priority status dueDate) tasks)

/-- The collection the component holds after an operation: an error leaves
the previous collection in place. -/
def resultCollection (r : Except DashError (List Task)) (tasks : List Task) : List Task :=
  match r with
  | Except.ok l => l
  | Except.error _ => tasks

/-! ## Query engine (`visibleTasks`, lines 69–92) -/

/-- Search predicate (lines 73–78): case-insensitive substring match of the
lowercased query against title, description and assignee.  The source reads
`t.title` without a default (it would throw on an `undefined` title); an
`undefined` title is modelled as the empty string here, and theorems that
touch the search path carry a titles-present hypothesis. -/
def matchesQuery (q : String) (t : Task) : Bool :=
  jsIncludes (jsToLower (jsOr t.title "")) q ||
    jsIncludes (jsToLower (jsOr t.description "")) q ||
    jsIncludes (jsToLower (jsOr t.assignee "")) q

/-- Sort key for `sortBy === "dueDate"`: `a.dueDate || "9999"`. -/
def dueKey (t : Task) : String := jsOr t.dueDate "9999"

/-- Sort key for `sortBy === "updatedAt"`: `a.updatedAt || ""`. -/
def updKey (t : Task) : String := jsOr t.updatedAt ""

/-- Priority severity rank: `order[a.priority] || 0` with
`order = { Low: 0, Medium: 1, High: 2, Critical: 3 }`; an absent or
unrecognized priority yields `undefined`, hence rank 0. -/
def prioRank (t : Task) : Int :=
  match t.priority with
  | some s =>
    if s = "Medium" then 1 else if s = "High" then 2 else if s = "Critical" then 3 else 0
  | none => 0

/-- Comparator `(a, b) => (a.dueDate || "9999") > (b.dueDate || "9999") ? 1 : -1`. -/
def cmpDue (a b : Task) : Int :=
  if strGt (dueKey a) (dueKey b) then 1 else -1

/-- Comparator `(a, b) => (order[a.priority] || 0) - (order[b.priority] || 0)`. -/
def cmpPrio (a b : Task) : Int :=
  prioRank a - prioRank b

/-- Comparator `(a, b) => (a.updatedAt || "") > (b.updatedAt || "") ? -1 : 1`. -/
def cmpUpd (a b : Task) : Int :=
  if strGt (updKey a) (updKey b) then -1 else 1

/-- The element order a stable comparator-driven sort maintains:
`a` may stay before `b` iff the comparator does not require `b < a`. -/
def sortLe (cmp : Task → Task → Int) (a b : Task) : Bool :=
  cmp a b ≤ 0

/-- Model of `result.sort(cmp)`: stable merge sort driven by the comparator. -/
def jsSortBy (cmp : Task → Task → Int) (l : List Task) : List Task :=
  l.mergeSort (sortLe cmp)

/-- The filter stages of `visibleTasks` (lines 70–81): search, then status
filter, then priority filter, each skipped at its sentinel. -/
def filterPipeline (query fStatus fPriority : String) (tasks : List Task) : List Task :=
  let r1 := if jsTrim query ≠ "" then tasks.filter (matchesQuery (jsToLower query)) else tasks
  let r2 := if fStatus ≠ "All" then r1.filter (fun t => t.status == some fStatus) else r1
  if fPriority ≠ "All" then r2.filter (fun t => t.priority == some fPriority) else r2

/-- The derived view `visibleTasks` (lines 69–92): filter pipeline followed
by the sort selected by `sortBy` (no sort for an unknown key). -/
def visibleTasks (query fStatus fPriority sortBy : String) (tasks : List Task) : List Task :=
  let r := filterPipeline query fStatus fPriority tasks
  if sortBy = "dueDate" then jsSortBy cmpDue r
  else if sortBy = "priority" then jsSortBy cmpPrio r
  else if sortBy = "updatedAt" then jsSortBy cmpUpd r
  else r

/-! ## CSV codec (`exportCSV` lines 127–138, `importCSV` lines 140–156,
`splitCSVLine` lines 411–424) -/

/-- The fixed header/field schema of the codec. -/
def headerNames : List String :=
  ["id", "title", "description", "assignee", "priority", "status",
    "dueDate", "createdAt", "updatedAt"]

/-- Dynamic field access `t[h]` for the schema names (any other key reads
`undefined`). -/
def taskField (t : Task) (h : String) : JStr :=
  if h = "id" then t.id
  else if h = "title" then t.title
  else if h = "description" then t.description
  else if h = "assignee" then t.assignee
  else if h = "priority" then t.priority
  else if h = "status" then t.status
  else if h = "dueDate" then t.dueDate
  else if h = "createdAt" then t.createdAt
  else if h = "updatedAt" then t.updatedAt
  else none

/-- Lower-case hex digit, as produced by `JSON.stringify` in `\u00XX`
escapes. -/
def hexDigitChar (n : Nat) : Char :=
  List.getD "0123456789abcdef".data n '0'

/-- Per-character escaping performed by `JSON.stringify` on a string value. -/
def jsonEscapeChar (c : Char) : List Char :=
  if c = '"' then ['\\', '"']
  else if c = '\\' then ['\\', '\\']
  else if c = '\n' then ['\\', 'n']
  else if c = '\r' then ['\\', 'r']
  else if c = '\t' then ['\\', 't']
  else if c = Char.ofNat 8 then ['\\', 'b']
  else if c = Char.ofNat 12 then ['\\', 'f']
  else if c.toNat < 32 then ['\\', 'u', '0', '0', hexDigitChar (c.toNat / 16), hexDigitChar (c.toNat % 16)]
  else [c]

/-- Builtin `JSON.stringify` applied to a string value: a quoted, escaped literal. -/
def jsonStringify (s : String) : List Char :=
  '"' :: s.data.flatMap jsonEscapeChar ++ ['"']

/-- The header row `header.join(",")` of the export. -/
def csvHeaderLine : List Char :=
  List.intercalate [','] (headerNames.map String.data)

/-- One data row of the export:
`header.map((h) => JSON.stringify(t[h] || "")).join(",")`. -/
def csvRowLine (t : Task) : List Char :=
  List.intercalate [','] (headerNames.map fun h => jsonStringify (jsOr (taskField t h) ""))

/-- The full CSV text `[header.join(","), ...rows].join("\n")`. -/
def exportCSV (tasks : List Task) : List Char :=
  List.intercalate ['\n'] (csvHeaderLine :: tasks.map csvRowLine)

/-- Remove one trailing carriage return (the `\r?` of the line-split
regex `/\r?\n/`, which only consumes a `\r` directly before a `\n`). -/
def stripTrailingCR (l : List Char) : List Char :=
  if l.getLast? = some '\r' then l.dropLast else l

/-- Apply `f` to every element except the last (the final split piece was
not followed by a `\n`). -/
def mapInit (f : List Char → List Char) : List (List Char) → List (List Char)
  | [] => []
  | [x] => [x]
  | x :: xs => f x :: mapInit f xs

/-- Models `text.split(/\r?\n/)`. -/
def splitLines (s : List Char) : List (List Char) :=
  mapInit stripTrailingCR (s.splitOn '\n')

/-- Models `h.replace(/"/g, "")`. -/
def removeQuotes (l : List Char) : List Char :=
  l.filter (fun c => c != '"')

/-- The character scan of `splitCSVLine` (lines 413–422): a quote toggles
the in-quotes mode and is dropped, a comma outside quotes ends the current
field, everything else accumulates. -/
def splitCSVRaw : List Char → List Char → Bool → List (List Char)
  | [], cur, _ => [cur]
  | c :: rest, cur, inQ =>
    if c = '"' then splitCSVRaw rest cur (!inQ)
    else if c = ',' then
      if inQ then splitCSVRaw rest (cur ++ [c]) inQ
      else cur :: splitCSVRaw rest [] inQ
    else splitCSVRaw rest (cur ++ [c]) inQ

/-- The re-quoting step of `splitCSVLine` (line 423):
`p === '' ? '""' : '"' + p + '"'`. -/
def rewrapPart (p : List Char) : List Char :=
  if p = [] then ['"', '"'] else '"' :: p ++ ['"']

/-- Function `splitCSVLine(line)`: scan, then wrap every field back into a quoted
literal for `JSON.parse`. -/
def splitCSVLine (line : List Char) : List (List Char) :=
  (splitCSVRaw line [] false).map rewrapPart

/-- Value of one hex digit accepted by a `\uXXXX` escape. -/
def hexVal (c : Char) : Option Nat :=
  if '0' ≤ c ∧ c ≤ '9' then some (c.toNat - 48)
  else if 'a' ≤ c ∧ c ≤ 'f' then some (c.toNat - 87)
  else if 'A' ≤ c ∧ c ≤ 'F' then some (c.toNat - 55)
  else none

/-- Single-character escapes accepted by `JSON.parse` inside a string. -/
def unescChar (e : Char) : Option Char :=
  if e = '"' then some '"'
  else if e = '\\' then some '\\'
  else if e = '/' then some '/'
  else if e = 'n' then some '\n'
  else if e = 'r' then some '\r'
  else if e = 't' then some '\t'
  else if e = 'b' then some (Char.ofNat 8)
  else if e = 'f' then some (Char.ofNat 12)
  else none

/-- Body of a JSON string literal after the opening quote: the closing
quote must end the input (the parsed value is a bare string literal), raw
control characters and bad escapes are rejected.  (`JSON.parse` additionally
accepts surrogate-pair `\u` escapes for characters outside the basic
multilingual plane; those are rejected here since a lone UTF-16 code unit
is not a code point.) -/
def jsonStringBody : List Char → Option (List Char)
  | [] => none
  | c :: rest =>
    if c = '"' then (if rest.isEmpty then some [] else none)
    else if c = '\\' then
      match rest with
      | 'u' :: h1 :: h2 :: h3 :: h4 :: rest4 =>
        match hexVal h1, hexVal h2, hexVal h3, hexVal h4 with
        | some x1, some x2, some x3, some x4 =>
          let n := ((x1 * 16 + x2) * 16 + x3) * 16 + x4
          if n < 55296 ∨ (57343 < n ∧ n < 1114112) then
            (jsonStringBody rest4).map (fun l => Char.ofNat n :: l)
          else none
        | _, _, _, _ => none
      | e :: rest2 =>
        match unescChar e with
        | some d => (jsonStringBody rest2).map (fun l => d :: l)
        | none => none
      | [] => none
    else if c.toNat < 32 then none
    else (jsonStringBody rest).map (fun l => c :: l)

/-- Builtin `JSON.parse` applied to one re-quoted CSV field (always a string
literal). -/
def jsonParseStr (s : List Char) : Option (List Char) :=
  match s with
  | '"' :: rest => jsonStringBody rest
  | _ => none

/-- The `header.forEach((h, i) => obj[h] = JSON.parse(parts[i] || '""'))`
loop: builds the record draft in header order; a missing part falls back to
the literal `'""'`; a parse failure aborts the import (uncaught exception). -/
def rowEntriesGo (parts : List (List Char)) : Nat → List (List Char) →
    Option (List (List Char × List Char))
  | _, [] => some []
  | i, h :: hs =>
    match jsonParseStr (parts.getD i ['"', '"']) with
    | none => none
    | some v => (rowEntriesGo parts (i + 1) hs).map (fun es => (h, v) :: es)

/-- Record draft parsed from one data row, keyed by the header names. -/
def rowEntries (header : List (List Char)) (line : List Char) :
    Option (List (List Char × List Char)) :=
  rowEntriesGo (splitCSVLine line) 0 header

/-- Reading key `k` from the record draft: the last assignment wins
(duplicate header names overwrite), an unassigned key reads `undefined`. -/
def objGet (entries : List (List Char × List Char)) (k : List Char) : Option (List Char) :=
  entries.foldl (fun acc e => if e.1 = k then some e.2 else acc) none

/-- The task record `{ ...obj }` built from a record draft. -/
def taskOfObj (entries : List (List Char × List Char)) : Task :=
  { id := (objGet entries "id".data).map String.mk,
    title := (objGet entries "title".data).map String.mk,
    description := (objGet entries "description".data).map String.mk,
    assignee := (objGet entries "assignee".data).map String.mk,
    priority := (objGet entries "priority".data).map String.mk,
    status := (objGet entries "status".data).map String.mk,
    dueDate := (objGet entries "dueDate".data).map String.mk,
    createdAt := (objGet entries "createdAt".data).map String.mk,
    updatedAt := (objGet entries "updatedAt".data).map String.mk }

/-- Operation `importCSV` applied to the file text (lines 140–156): split into
non-empty lines, reject a payload with no data row (`alert("No data
found")`, surfaced as `EmptyImportError`), parse the header by splitting on
commas and stripping quotes, parse each data row into a record draft, and
prepend the imported records to the collection. -/
def importCSV (text : List Char) (tasks : List Task) : Except DashError (List Task) :=
  let lines := (splitLines text).filter (fun l => !l.isEmpty)
  if lines.length < 2 then Except.error DashError.EmptyImportError
  else
    let header := ((lines.headD []).splitOn ',').map removeQuotes
    match (lines.drop 1).mapM (rowEntries header) with
    | none => Except.error DashError.ParseError
    | some objs => Except.ok (objs.map taskOfObj ++ tasks)

/-- Number of data rows of an import payload: non-empty lines beyond the
header. -/
def dataRowCount (text : List Char) : Nat :=
  ((splitLines text).filter (fun l => !l.isEmpty)).length - 1

/-- Decidable equality on operation results, for concrete evaluation. -/
instance {e a : Type} [DecidableEq e] [DecidableEq a] : DecidableEq (Except e a)
  | Except.ok x, Except.ok y =>
    if h : x = y then isTrue (by rw [h]) else isFalse (fun hc => by cases hc; exact h rfl)
  | Except.ok _, Except.error _ => isFalse (fun hc => by cases hc)
  | Except.error _, Except.ok _ => isFalse (fun hc => by cases hc)
  | Except.error x, Except.error y =>
    if h : x = y then isTrue (by rw [h]) else isFalse (fun hc => by cases hc; exact h rfl)

/-! ## Concrete records used in scenarios, witnesses and counterexamples -/

/-- A fully populated task record, as produced by the seed data or a
pre-bug store. -/
def baseTask : Task :=
  { id := some "t0", title := some "Task", description := some "",
    assignee := some "", priority := some "Medium", status := some "Todo",
    dueDate := some "", createdAt := some "2024-01-01T00:00:00.000Z",
    updatedAt := some "2024-01-01T00:00:00.000Z" }

/-- A record that is being edited but no longer exists in the collection
(stale editing target). -/
def ghostTask : Task := { baseTask with id := some "zzz" }

/-- A direct-call update payload that names `createdAt`. -/
def createdAtPayload : Payload :=
  { id := some (some "t0"), title := some "T", description := none,
    assignee := none, priority := none, status := none, dueDate := none,
    createdAt := some "1999-12-31T00:00:00.000Z", updatedAt := none }

/-- An update payload for `baseTask` that does not name `createdAt`. -/
def framePayload : Payload :=
  { id := some (some "t0"), title := some "T", description := none,
    assignee := none, priority := none, status := none, dueDate := none,
    createdAt := none, updatedAt := none }

/-- An update payload whose target id is absent from the collection. -/
def stalePayload : Payload :=
  { id := some (some "zzz"), title := some "Fix", description := some "",
    assignee := some "", priority := some "Medium", status := some "Todo",
    dueDate := some "", createdAt := none, updatedAt := none }

/-- A three-name header used to exercise short data rows. -/
def shortHeader : List (List Char) :=
  ["id".data, "title".data, "description".data]

/-! ## Specification-side vocabulary for the round-trip analysis -/

/-- A string with no quote character.  Every other character — including
backslashes and control characters — survives the export/import cycle,
because `JSON.stringify` escapes it without introducing a raw quote and
`JSON.parse` undoes the escape; a raw quote in a field is the one thing the
quote-toggling scan of `splitCSVLine` destroys. -/
def quoteFreeStr (s : String) : Bool :=
  s.data.all (fun c => c != '"')

/-- A field that is present (not `undefined`) and quote-free. -/
def presentQuoteFree (x : JStr) : Bool :=
  match x with
  | none => false
  | some s => quoteFreeStr s

/-- A task whose nine schema fields are all present and quote-free. -/
def exportableTask (t : Task) : Bool :=
  presentQuoteFree t.id && presentQuoteFree t.title && presentQuoteFree t.description &&
    presentQuoteFree t.assignee && presentQuoteFree t.priority && presentQuoteFree t.status &&
    presentQuoteFree t.dueDate && presentQuoteFree t.createdAt && presentQuoteFree t.updatedAt

/-- A field value wrapped in quotes: every exported field and every
re-quoted part of `splitCSVLine` has this shape. -/
def quoteWrap (f : List Char) : List Char :=
  '"' :: f ++ ['"']

/-- The nine field values of a task in export order. -/
def fieldVals (t : Task) : List (List Char) :=
  headerNames.map (fun h => (jsOr (taskField t h) "").data)

/-- The nine field values after `JSON.stringify` escaping, as they appear
between the quotes of an exported row. -/
def escVals (t : Task) : List (List Char) :=
  headerNames.map (fun h => (jsOr (taskField t h) "").data.flatMap jsonEscapeChar)

/-- A task whose description contains the delimiter character. -/
def commaTask : Task :=
  { baseTask with
    id := some "c1"
    title := some "Replace brakes"
    description := some "Replace, then test" }

/-- A task whose title contains a quote character. -/
def quoteTask : Task :=
  { baseTask with id := some "q1", title := some "a\"b" }

/-- A task exercising escaped characters: a backslash in the title and a
raw newline in the description. -/
def escTask : Task :=
  { baseTask with
    id := some "e1"
    title := some "a\\b"
    description := some "line1\nline2" }

end TTD

set_option maxRecDepth 400000

namespace TTD

/-! ## Claim theorems -/

/-- C1: a create or update call (`TaskForm.save` feeding `upsertTask`) whose
title is empty or whitespace-only reports `ValidationError` to the caller
and leaves the task collection unchanged; moreover `upsertTask` itself never
mutates the collection when handed a falsy title. -/
theorem save_blank_title_validation (nowv fresh : String) (initial : Option Task)
    (title description assignee priority status dueDate : String) (tasks : List Task)
    (h : jsTrim title = "") :
    saveForm nowv fresh initial title description assignee priority status dueDate tasks =
      Except.error DashError.ValidationError ∧
    resultCollection
      (saveForm nowv fresh initial title description assignee priority status dueDate tasks)
      tasks = tasks ∧
    ∀ p : Payload, titleTruthy p = false → upsertTask nowv fresh p tasks = tasks := by
  refine ⟨?_, ?_, ?_⟩
  · simp [saveForm, h]
  · simp [saveForm, h, resultCollection]
  · intro p hp
    simp [upsertTask, hp]

/-- C1 witness: a whitespace-only title is rejected with `ValidationError`
at a concrete input. -/
theorem save_blank_title_validation_witness :
    saveForm "2025-01-01T00:00:00.000Z" "uid1" none "   " "" "" "Medium" "Todo" "" [] =
      Except.error DashError.ValidationError :=
  (save_blank_title_validation "2025-01-01T00:00:00.000Z" "uid1" none
    "   " "" "" "Medium" "Todo" "" [] (by decide)).1

/-- C4 counterexample: saving an edit of a record whose id (`"zzz"`) is
absent from the collection succeeds silently with the collection unchanged —
no `NotFoundError` (or any error) is reported, refuting the claim that such
an update fails with `NotFoundError`. -/
theorem update_absent_id_counterexample :
    saveForm "2025-01-02T00:00:00.000Z" "uid2" (some ghostTask)
      "Fix brakes" "" "" "Medium" "Todo" "" [baseTask] = Except.ok [baseTask] := by
  decide

/-- C4 amended: an update call (truthy title and id) whose target id is
absent from the collection is a silent no-op: the collection is unchanged
and no error is produced (`upsertTask` returns plainly). -/
theorem update_absent_id_silent_noop (nowv fresh : String) (p : Payload) (tasks : List Task)
    (ht : titleTruthy p = true) (hi : idTruthy p = true)
    (habs : ∀ x ∈ tasks, x.id ≠ payloadIdVal p) :
    upsertTask nowv fresh p tasks = tasks := by
  rw [upsertTask, if_pos ht, if_pos hi]
  rw [List.map_congr_left (fun x hx => if_neg (habs x hx))]
  simp

/-- C4 amended witness: the silent no-op at a concrete stale-id payload. -/
theorem update_absent_id_silent_noop_witness :
    upsertTask "2025-01-02T00:00:00.000Z" "uid2" stalePayload [baseTask] = [baseTask] :=
  update_absent_id_silent_noop "2025-01-02T00:00:00.000Z" "uid2" stalePayload [baseTask]
    (by decide) (by decide) (by decide)

/-- C5 counterexample: an update payload that names `createdAt` does change
the record's `createdAt` (the merge spreads the payload over the record),
refuting the claim for arbitrary supplied fields objects. -/
theorem update_createdAt_override_counterexample :
    baseTask.createdAt = some "2024-01-01T00:00:00.000Z" ∧
    (upsertTask "2025-01-02T00:00:00.000Z" "uid2" createdAtPayload [baseTask]).map
      Task.createdAt = [some "1999-12-31T00:00:00.000Z"] := by
  decide

/-- C5 amended: for every update call whose payload does not name
`createdAt` (as holds for every payload the UI constructs), the matched
record keeps its `id` and `createdAt`, every field the payload does not name
keeps its previous value, and `updatedAt` is refreshed; unmatched records
are untouched. -/
theorem update_frame_unnamed_fields (nowv fresh : String) (p : Payload) (tasks : List Task)
    (ht : titleTruthy p = true) (hi : idTruthy p = true) (hc : p.createdAt = none) :
    upsertTask nowv fresh p tasks =
      tasks.map (fun x => if x.id = payloadIdVal p then mergeInto nowv p x else x) ∧
    ∀ x : Task, x.id = payloadIdVal p →
      (mergeInto nowv p x).id = x.id ∧
      (mergeInto nowv p x).createdAt = x.createdAt ∧
      (mergeInto nowv p x).updatedAt = some nowv ∧
      (p.title = none → (mergeInto nowv p x).title = x.title) ∧
      (p.description = none → (mergeInto nowv p x).description = x.description) ∧
      (p.assignee = none → (mergeInto nowv p x).assignee = x.assignee) ∧
      (p.priority = none → (mergeInto nowv p x).priority = x.priority) ∧
      (p.status = none → (mergeInto nowv p x).status = x.status) ∧
      (p.dueDate = none → (mergeInto nowv p x).dueDate = x.dueDate) := by
  constructor
  · rw [upsertTask, if_pos ht, if_pos hi]
  · intro x hx
    have hid : (mergeInto nowv p x).id = x.id := by
      rcases hp : p.id with _ | v
      · simp [mergeInto, hp]
      · simp only [mergeInto, hp, Option.getD_some]
        rw [hx, payloadIdVal, hp, Option.getD_some]
    refine ⟨hid, by simp [mergeInto, hc], rfl, ?_, ?_, ?_, ?_, ?_, ?_⟩ <;>
      intro hf <;> simp [mergeInto, hf]

/-- C5 amended witness: at a concrete payload not naming `createdAt`, the
merged record keeps `createdAt`. -/
theorem update_frame_unnamed_fields_witness :
    (mergeInto "2025-01-02T00:00:00.000Z" framePayload baseTask).createdAt =
      baseTask.createdAt :=
  ((update_frame_unnamed_fields "2025-01-02T00:00:00.000Z" "uid2" framePayload [baseTask]
    (by decide) (by decide) (by decide)).2 baseTask (by decide)).2.1

/-- C6: two successive form creates with distinct fresh uid values
nevertheless produce two records whose ids are both `undefined` — the
spread `...payload` in the create branch overrides `id: uid()` with the
payload's `id: undefined` — so the resulting ids are not pairwise
distinct. -/
theorem create_ids_all_undefined :
    (let s1 := resultCollection
      (saveForm "2025-01-01T00:00:00.000Z" "uid-one" none
        "First task" "" "" "Medium" "Todo" "" []) [];
     let s2 := resultCollection
      (saveForm "2025-01-02T00:00:00.000Z" "uid-two" none
        "Second task" "" "" "Medium" "Todo" "" s1) s1;
     s2.map Task.id = [none, none]) ∧ "uid-one" ≠ "uid-two" := by
  decide

/-- C9: a payload with fewer than one data row fails with
`EmptyImportError` and the collection is unchanged. -/
theorem import_no_data_rows_error (text : List Char) (tasks : List Task)
    (h : dataRowCount text = 0) :
    (importCSV text tasks) = Except.error DashError.EmptyImportError ∧
    resultCollection (importCSV text tasks) tasks = tasks := by
  have hlen : ((splitLines text).filter (fun l => !l.isEmpty)).length < 2 := by
    unfold dataRowCount at h
    omega
  constructor
  · rw [importCSV]
    simp only [hlen, if_pos]
  · rw [importCSV]
    simp only [hlen, if_pos, resultCollection]

/-- C9 witness: a header-only payload is rejected with `EmptyImportError`
and leaves a concrete collection unchanged. -/
theorem import_no_data_rows_error_witness :
    (importCSV "id,title,description,assignee,priority,status,dueDate,createdAt,updatedAt".data
      [baseTask]) = Except.error DashError.EmptyImportError :=
  (import_no_data_rows_error
    "id,title,description,assignee,priority,status,dueDate,createdAt,updatedAt".data
    [baseTask] (by decide)).1

/-- Helper for C10: the record-draft loop succeeds whenever every present
part parses, and assigns the parsed default `""` to every header position
at or beyond the end of the parts list. -/
theorem rowEntriesGo_total (parts : List (List Char))
    (hparse : ∀ pt ∈ parts, (jsonParseStr pt).isSome = true) :
    ∀ (hs : List (List Char)) (n : Nat),
      ∃ es, rowEntriesGo parts n hs = some es ∧ es.length = hs.length ∧
        ∀ j, parts.length ≤ n + j →
          es.get? j = (hs.get? j).map (fun h => (h, ([] : List Char)))
  | [], n => ⟨[], rfl, rfl, fun j _ => rfl⟩
  | h :: hs, n => by
    obtain ⟨es, h1, h2, h3⟩ := rowEntriesGo_total parts hparse hs (n + 1)
    by_cases hn : n < parts.length
    · have hmem : parts.getD n ['"', '"'] ∈ parts := by
        rw [List.getD_eq_getElem?_getD, List.getElem?_eq_getElem hn]
        exact List.getElem_mem hn
      obtain ⟨v, hv⟩ := Option.isSome_iff_exists.mp (hparse _ hmem)
      refine ⟨(h, v) :: es, ?_, by simp [h2], ?_⟩
      · rw [rowEntriesGo, hv, h1]
        rfl
      · intro j hj
        match j with
        | 0 => omega
        | j + 1 =>
          simp only [List.get?]
          exact h3 j (by omega)
    · have hd : parts.getD n ['"', '"'] = ['"', '"'] :=
        List.getD_eq_default _ _ (by omega)
      refine ⟨(h, []) :: es, ?_, by simp [h2], ?_⟩
      · rw [rowEntriesGo, hd]
        show (rowEntriesGo parts (n + 1) (hs)).map (fun es => (h, []) :: es) = _
        rw [h1]
        rfl
      · intro j _
        match j with
        | 0 => rfl
        | j + 1 =>
          simp only [List.get?]
          exact h3 j (by omega)

/-- C10: a data row with fewer fields than the header does not make
the import fail (provided the fields it does have parse): the record-draft loop
succeeds, produces one entry per header column, and assigns the empty
string to every header column with no corresponding field in the row. -/
theorem import_short_row_defaults_empty (header : List (List Char)) (line : List Char)
    (hparse : ∀ pt ∈ splitCSVLine line, (jsonParseStr pt).isSome = true) :
    (rowEntries header line).isSome = true ∧
    ((rowEntries header line).getD []).length = header.length ∧
    ∀ j, (splitCSVLine line).length ≤ j →
      ((rowEntries header line).getD []).get? j =
        (header.get? j).map (fun h => (h, ([] : List Char))) := by
  obtain ⟨es, h1, h2, h3⟩ := rowEntriesGo_total (splitCSVLine line) hparse header 0
  rw [rowEntries, h1]
  refine ⟨rfl, h2, fun j hj => h3 j (by omega)⟩

/-- C10 witness: a one-field row against a three-name header leaves the
third column assigned the empty string. -/
theorem import_short_row_defaults_empty_witness :
    ((rowEntries shortHeader "\"x\"".data).getD []).get? 2 =
      some ("description".data, ([] : List Char)) :=
  (import_short_row_defaults_empty shortHeader "\"x\"".data (by decide)).2.2 2 (by decide)

/-! ## Order facts about the string comparison used by the sort -/

theorem charEqOfToNat {a b : Char} (h : a.toNat = b.toNat) : a = b := by
  apply Char.ext
  apply UInt32.ext
  simpa [Char.toNat] using h

theorem listCharLt_irrefl : ∀ a : List Char, listCharLt a a = false
  | [] => rfl
  | c :: as => by
    rw [listCharLt]
    simp [listCharLt_irrefl as]

theorem listCharLt_asymm : ∀ a b : List Char,
    listCharLt a b = true → listCharLt b a = false
  | [], [], h => by simp [listCharLt] at h
  | [], _ :: _, _ => rfl
  | _ :: _, [], h => by simp [listCharLt] at h
  | a :: as, b :: bs, h => by
    rw [listCharLt] at h ⊢
    by_cases h1 : a.toNat < b.toNat
    · have h2 : ¬ b.toNat < a.toNat := by omega
      simp [h1, h2]
    · by_cases h2 : b.toNat < a.toNat
      · simp [h1, h2] at h
      · simp only [h1, h2, if_false, if_neg] at h ⊢
        simpa using listCharLt_asymm as bs (by simpa using h)

theorem listCharLt_trans : ∀ a b c : List Char,
    listCharLt a b = true → listCharLt b c = true → listCharLt a c = true
  | [], [], _, h1, _ => by simp [listCharLt] at h1
  | [], _ :: _, [], _, h2 => by simp [listCharLt] at h2
  | [], _ :: _, _ :: _, _, _ => rfl
  | _ :: _, [], _, h1, _ => by simp [listCharLt] at h1
  | _ :: _, _ :: _, [], _, h2 => by simp [listCharLt] at h2
  | a :: as, b :: bs, c :: cs, h1, h2 => by
    rw [listCharLt] at h1 h2 ⊢
    by_cases hab : a.toNat < b.toNat <;> by_cases hbc : b.toNat < c.toNat
    · simp [show a.toNat < c.toNat by omega]
    · by_cases hcb : c.toNat < b.toNat
      · simp [hbc, hcb] at h2
      · have : b.toNat = c.toNat := by omega
        simp [show a.toNat < c.toNat by omega]
    · by_cases hba : b.toNat < a.toNat
      · simp [hab, hba] at h1
      · have : a.toNat = b.toNat := by omega
        simp [show a.toNat < c.toNat by omega]
    · by_cases hba : b.toNat < a.toNat
      · simp [hab, hba] at h1
      · by_cases hcb : c.toNat < b.toNat
        · simp [hbc, hcb] at h2
        · have hac1 : ¬ a.toNat < c.toNat := by omega
          have hac2 : ¬ c.toNat < a.toNat := by omega
          simp only [hab, hba, hbc, hcb, hac1, hac2, if_false, if_neg] at h1 h2 ⊢
          simpa using listCharLt_trans as bs cs (by simpa using h1) (by simpa using h2)

theorem listCharLt_conn : ∀ a b : List Char,
    listCharLt a b = false → listCharLt b a = false → a = b
  | [], [], _, _ => rfl
  | [], _ :: _, h, _ => by simp [listCharLt] at h
  | _ :: _, [], _, h' => by simp [listCharLt] at h'
  | a :: as, b :: bs, h, h' => by
    rw [listCharLt] at h h'
    by_cases hab : a.toNat < b.toNat
    · simp [hab] at h
    · by_cases hba : b.toNat < a.toNat
      · simp [hab, hba] at h'
      · have he : a = b := charEqOfToNat (by omega)
        subst he
        have := listCharLt_conn as bs (by simpa [hab, hba] using h) (by simpa [hab, hba] using h')
        rw [this]

/-- Negative transitivity needed for the non-strict order induced by the
comparators. -/
theorem listCharLt_le_trans {x y z : List Char}
    (h1 : listCharLt y x = false) (h2 : listCharLt z y = false) :
    listCharLt z x = false := by
  by_contra hcon
  rw [Bool.not_eq_false] at hcon
  by_cases hyz : listCharLt y z = true
  · have := listCharLt_trans y z x hyz hcon
    exact absurd this (by rw [h1]; simp)
  · rw [Bool.not_eq_true] at hyz
    have : z = y := listCharLt_conn z y h2 hyz
    subst this
    exact absurd hcon (by rw [h1]; simp)

/-! ## Evaluation of the stable sort on two- and three-element views -/

theorem mergeSort_pair {α : Type} (le : α → α → Bool) (a b : α) :
    [a, b].mergeSort le = if le a b then [a, b] else [b, a] := by
  simp [List.mergeSort, List.splitInTwo, List.splitAt_eq, List.merge]

theorem mergeSort_triple {α : Type} (le : α → α → Bool) (a b c : α) :
    [a, b, c].mergeSort le = List.merge ([a, b].mergeSort le) [c] le := by
  simp [List.mergeSort, List.splitInTwo, List.splitAt_eq]

/-! ## The order relations induced by the three comparators -/

theorem sortLe_cmpDue (a b : Task) :
    sortLe cmpDue a b = !listCharLt (dueKey b).data (dueKey a).data := by
  rw [sortLe, cmpDue, strGt, strLt]
  by_cases h : listCharLt (dueKey b).data (dueKey a).data <;> simp [h]

theorem dueLe_trans : ∀ a b c : Task,
    sortLe cmpDue a b = true → sortLe cmpDue b c = true → sortLe cmpDue a c = true := by
  intro a b c hab hbc
  rw [sortLe_cmpDue, Bool.not_eq_true'] at hab hbc ⊢
  exact listCharLt_le_trans hab hbc

theorem dueLe_total : ∀ a b : Task,
    (sortLe cmpDue a b || sortLe cmpDue b a) = true := by
  intro a b
  rw [sortLe_cmpDue, sortLe_cmpDue]
  by_cases h : listCharLt (dueKey b).data (dueKey a).data = true
  · rw [h, listCharLt_asymm _ _ h]
    simp
  · rw [Bool.not_eq_true] at h
    rw [h]
    simp

theorem sortLe_cmpPrio (a b : Task) :
    sortLe cmpPrio a b = decide (prioRank a ≤ prioRank b) := by
  rw [sortLe, cmpPrio]
  exact decide_eq_decide.mpr sub_nonpos

theorem prioLe_trans : ∀ a b c : Task,
    sortLe cmpPrio a b = true → sortLe cmpPrio b c = true → sortLe cmpPrio a c = true := by
  intro a b c hab hbc
  rw [sortLe_cmpPrio, decide_eq_true_eq] at hab hbc ⊢
  exact le_trans hab hbc

theorem prioLe_total : ∀ a b : Task,
    (sortLe cmpPrio a b || sortLe cmpPrio b a) = true := by
  intro a b
  rw [sortLe_cmpPrio, sortLe_cmpPrio]
  rcases Int.le_total (prioRank a) (prioRank b) with h | h
  · simp [h]
  · simp [h]

/-! ## C3 and C7 -/

/-- Two tasks distinguishable only by id/title, with equal `updatedAt`. -/
def updTask1 : Task := { baseTask with id := some "u1", title := some "First" }

/-- Second task with the same `updatedAt` as `updTask1`. -/
def updTask2 : Task := { baseTask with id := some "u2", title := some "Second" }

/-- C3 counterexample: under the `updatedAt` sort key, two tasks with equal
`updatedAt` come out in reversed order — the comparator reports a tie as
`1` ("greater"), so the sort does not keep equal-key elements in input
order, refuting stability for every sort key. -/
theorem updatedAt_equal_keys_reordered_counterexample :
    updTask1.updatedAt = updTask2.updatedAt ∧ updTask1 ≠ updTask2 ∧
    visibleTasks "" "All" "All" "updatedAt" [updTask1, updTask2] = [updTask2, updTask1] := by
  refine ⟨by decide, by decide, ?_⟩
  have hvis : visibleTasks "" "All" "All" "updatedAt" [updTask1, updTask2] =
      jsSortBy cmpUpd (filterPipeline "" "All" "All" [updTask1, updTask2]) := by
    simp [visibleTasks]
  have hfp : filterPipeline "" "All" "All" [updTask1, updTask2] = [updTask1, updTask2] := by
    decide
  rw [hvis, hfp, jsSortBy, mergeSort_pair]
  decide

/-- C3 amended: the sort of the derived view is stable for equal keys under
the `priority` key (whose comparator reports ties as `0`): a pair of tasks
with equal priority rank that survives the filter stages in order `[a, b]`
appears in that order in the sorted view; moreover the `priority` sort is
idempotent.  (The `dueDate` and `updatedAt` comparators never report a tie,
so ECMAScript gives no stability guarantee for those keys, and the
`updatedAt` comparator actively reverses equal-key pairs.) -/
theorem priority_sort_stable (q fs fp : String) (tasks : List Task) (a b : Task)
    (hsub : List.Sublist [a, b] (filterPipeline q fs fp tasks))
    (hk : prioRank a = prioRank b) :
    List.Sublist [a, b] (visibleTasks q fs fp "priority" tasks) ∧
    jsSortBy cmpPrio (jsSortBy cmpPrio tasks) = jsSortBy cmpPrio tasks := by
  constructor
  · have hvis : visibleTasks q fs fp "priority" tasks =
        jsSortBy cmpPrio (filterPipeline q fs fp tasks) := by
      simp [visibleTasks]
    rw [hvis, jsSortBy]
    refine List.pair_sublist_mergeSort prioLe_trans prioLe_total ?_ hsub
    rw [sortLe_cmpPrio, hk]
    simp
  · rw [jsSortBy, jsSortBy]
    apply List.mergeSort_of_sorted
    exact List.sorted_mergeSort prioLe_trans prioLe_total tasks

/-- C3 amended witness: a concrete equal-priority pair is kept in order by
the `priority` sort. -/
theorem priority_sort_stable_witness :
    List.Sublist [updTask1, updTask2]
      (visibleTasks "" "All" "All" "priority" [updTask1, updTask2]) :=
  (priority_sort_stable "" "All" "All" [updTask1, updTask2] updTask1 updTask2
    (by decide) (by decide)).1

/-- A task whose due date lies in year 9999. -/
def dueTask9999 : Task := { baseTask with id := some "A9", dueDate := some "9999-12-31" }

/-- A task with no due date (empty string, falsy). -/
def dueTaskNone : Task := { baseTask with id := some "B0", dueDate := some "" }

/-- Scenario task A of the spec (due 2025-01-01). -/
def taskA : Task := { baseTask with id := some "A", dueDate := some "2025-01-01" }

/-- Scenario task B of the spec (no due date). -/
def taskB : Task := { baseTask with id := some "B", dueDate := some "" }

/-- Scenario task C of the spec (due 2024-06-01). -/
def taskC : Task := { baseTask with id := some "C", dueDate := some "2024-06-01" }

/-- C7 counterexample: a task with the real due date `9999-12-31` sorts
*after* a task with no due date, because the no-due sentinel is the string
`"9999"`, which is not the maximal possible value — refuting "every task
with no due date sorts after every task with one". -/
theorem dueDate_none_not_last_counterexample :
    dueTaskNone.dueDate = some "" ∧ dueTask9999.dueDate = some "9999-12-31" ∧
    visibleTasks "" "All" "All" "dueDate" [dueTask9999, dueTaskNone] =
      [dueTaskNone, dueTask9999] := by
  refine ⟨by decide, by decide, ?_⟩
  have hvis : visibleTasks "" "All" "All" "dueDate" [dueTask9999, dueTaskNone] =
      jsSortBy cmpDue (filterPipeline "" "All" "All" [dueTask9999, dueTaskNone]) := by
    simp [visibleTasks]
  have hfp : filterPipeline "" "All" "All" [dueTask9999, dueTaskNone] =
      [dueTask9999, dueTaskNone] := by decide
  rw [hvis, hfp, jsSortBy, mergeSort_pair]
  decide

/-- C7 amended: the `dueDate` view is ordered ascending by the key
`dueDate || "9999"` — tasks with no due date sort as if due `"9999"`, which
places them after every due date lexicographically below `"9999"` (all dates
up to year 9998) but not after dates in year 9999 — and the spec scenario
A(2025-01-01), B(no due), C(2024-06-01) comes out `[C, A, B]`. -/
theorem dueDate_sort_ascending (q fs fp : String) (tasks : List Task)
    (ht : ∀ x ∈ tasks, x.title ≠ none) :
    List.Pairwise (fun a b => strLt (dueKey b) (dueKey a) = false)
      (visibleTasks q fs fp "dueDate" tasks) ∧
    visibleTasks "" "All" "All" "dueDate" [taskA, taskB, taskC] = [taskC, taskA, taskB] := by
  constructor
  · have hvis : visibleTasks q fs fp "dueDate" tasks =
        jsSortBy cmpDue (filterPipeline q fs fp tasks) := by
      simp [visibleTasks]
    rw [hvis, jsSortBy]
    have := @List.sorted_mergeSort Task (sortLe cmpDue) dueLe_trans dueLe_total
      (filterPipeline q fs fp tasks)
    refine this.imp ?_
    intro a b hab
    rw [sortLe_cmpDue, Bool.not_eq_true'] at hab
    exact hab
  · have hvis : visibleTasks "" "All" "All" "dueDate" [taskA, taskB, taskC] =
        jsSortBy cmpDue (filterPipeline "" "All" "All" [taskA, taskB, taskC]) := by
      simp [visibleTasks]
    have hfp : filterPipeline "" "All" "All" [taskA, taskB, taskC] =
        [taskA, taskB, taskC] := by decide
    rw [hvis, hfp, jsSortBy, mergeSort_triple, mergeSort_pair]
    rw [if_pos (show sortLe cmpDue taskA taskB = true by decide)]
    rw [List.cons_merge_cons]
    rw [if_neg (show ¬ sortLe cmpDue taskA taskC = true by decide)]
    rw [List.merge_right]

/-- C7 amended witness: the ascending-order conclusion at a concrete
collection. -/
theorem dueDate_sort_ascending_witness :
    List.Pairwise (fun a b => strLt (dueKey b) (dueKey a) = false)
      (visibleTasks "" "All" "All" "dueDate" [taskA, taskB, taskC]) :=
  (dueDate_sort_ascending "" "All" "All" [taskA, taskB, taskC] (by decide)).1

/-! ## CSV codec lemmas -/

theorem jsOr_some (s : String) : jsOr (some s) "" = s := by
  by_cases h : s = "" <;> simp [jsOr, h]

theorem strMkData (s : String) : String.mk s.data = s := rfl

theorem hexDigitChar_safe (n : Nat) : hexDigitChar n ≠ '"' ∧ 32 ≤ (hexDigitChar n).toNat := by
  rw [hexDigitChar, List.getD_eq_getElem?_getD]
  rcases h : "0123456789abcdef".data[n]? with _ | c
  · decide
  · have hm : c ∈ "0123456789abcdef".data := List.getElem?_mem h
    have hall : ∀ d ∈ "0123456789abcdef".data, d ≠ '"' ∧ 32 ≤ d.toNat := by decide
    simpa using hall c hm

theorem quoteFree_chars {s : String} (h : quoteFreeStr s = true) : ∀ c ∈ s.data, c ≠ '"' := by
  intro c hc
  simpa using List.all_eq_true.mp h c hc

theorem intercalate_single (s x : List Char) : List.intercalate s [x] = x := by
  simp [List.intercalate]

theorem intercalate_cons2 (s x y : List Char) (t : List (List Char)) :
    List.intercalate s (x :: y :: t) = x ++ s ++ List.intercalate s (y :: t) := by
  simp [List.intercalate, List.intersperse]

theorem mem_intercalate_comma : ∀ (xs : List (List Char)) (c : Char),
    c ∈ List.intercalate [','] xs → c = ',' ∨ ∃ x ∈ xs, c ∈ x
  | [], c, h => by simp [List.intercalate] at h
  | [x], c, h => by
    rw [intercalate_single] at h
    exact Or.inr ⟨x, by simp, h⟩
  | x :: y :: t, c, h => by
    rw [intercalate_cons2] at h
    rcases List.mem_append.mp h with h1 | h2
    · rcases List.mem_append.mp h1 with h3 | h4
      · exact Or.inr ⟨x, by simp, h3⟩
      · simp only [List.mem_singleton] at h4
        exact Or.inl h4
    · rcases mem_intercalate_comma (y :: t) c h2 with h5 | ⟨z, hz, hcz⟩
      · exact Or.inl h5
      · exact Or.inr ⟨z, List.mem_cons_of_mem x hz, hcz⟩

theorem jsonEscapeChar_safe {c : Char} (hc : c ≠ '"') :
    ∀ d ∈ jsonEscapeChar c, d ≠ '"' ∧ 32 ≤ d.toNat := by
  intro d hd
  rw [jsonEscapeChar, if_neg hc] at hd
  by_cases h2 : c = '\\'
  · rw [if_pos h2] at hd
    fin_cases hd <;> decide
  rw [if_neg h2] at hd
  by_cases h3 : c = '\n'
  · rw [if_pos h3] at hd
    fin_cases hd <;> decide
  rw [if_neg h3] at hd
  by_cases h4 : c = '\r'
  · rw [if_pos h4] at hd
    fin_cases hd <;> decide
  rw [if_neg h4] at hd
  by_cases h5 : c = '\t'
  · rw [if_pos h5] at hd
    fin_cases hd <;> decide
  rw [if_neg h5] at hd
  by_cases h6 : c = Char.ofNat 8
  · rw [if_pos h6] at hd
    fin_cases hd <;> decide
  rw [if_neg h6] at hd
  by_cases h7 : c = Char.ofNat 12
  · rw [if_pos h7] at hd
    fin_cases hd <;> decide
  rw [if_neg h7] at hd
  by_cases h8 : c.toNat < 32
  · rw [if_pos h8] at hd
    fin_cases hd
    · decide
    · decide
    · decide
    · decide
    · exact hexDigitChar_safe _
    · exact hexDigitChar_safe _
  · rw [if_neg h8] at hd
    simp only [List.mem_singleton] at hd
    subst hd
    exact ⟨hc, by omega⟩

theorem jsonStringify_eq (s : String) :
    jsonStringify s = quoteWrap (s.data.flatMap jsonEscapeChar) := rfl

theorem presentQuoteFree_some {x : JStr} (h : presentQuoteFree x = true) :
    ∃ s, x = some s ∧ quoteFreeStr s = true ∧ jsOr x "" = s := by
  match x with
  | none => exact absurd h (by simp [presentQuoteFree])
  | some s => exact ⟨s, rfl, h, jsOr_some s⟩

theorem exportable_fields {t : Task} (h : exportableTask t = true) :
    ∀ hn ∈ headerNames, presentQuoteFree (taskField t hn) = true := by
  rw [exportableTask] at h
  simp only [Bool.and_eq_true] at h
  obtain ⟨⟨⟨⟨⟨⟨⟨⟨h1, h2⟩, h3⟩, h4⟩, h5⟩, h6⟩, h7⟩, h8⟩, h9⟩ := h
  intro hn hmem
  fin_cases hmem <;> simp [taskField] <;> assumption

theorem csvRowLine_eq (t : Task) :
    csvRowLine t = List.intercalate [','] ((escVals t).map quoteWrap) := by
  rw [csvRowLine, escVals, List.map_map]
  rfl

theorem escVals_safe {t : Task} (h : exportableTask t = true) :
    ∀ f ∈ escVals t, ∀ d ∈ f, d ≠ '"' ∧ 32 ≤ d.toNat := by
  intro f hf d hd
  obtain ⟨hn, hhn, rfl⟩ := List.mem_map.mp hf
  obtain ⟨s, _, hqf, hor⟩ := presentQuoteFree_some (exportable_fields h hn hhn)
  rw [hor] at hd
  obtain ⟨c, hcs, hcd⟩ := List.mem_flatMap.mp hd
  exact jsonEscapeChar_safe (quoteFree_chars hqf c hcs) d hcd

theorem fieldVals_quoteFree {t : Task} (h : exportableTask t = true) :
    ∀ f ∈ fieldVals t, ∀ c ∈ f, c ≠ '"' := by
  intro f hf c hc
  obtain ⟨hn, hhn, rfl⟩ := List.mem_map.mp hf
  obtain ⟨s, _, hqf, hor⟩ := presentQuoteFree_some (exportable_fields h hn hhn)
  rw [hor] at hc
  exact quoteFree_chars hqf c hc

theorem csvRowLine_all32 {t : Task} (h : exportableTask t = true) :
    ∀ c ∈ csvRowLine t, 32 ≤ c.toNat := by
  intro c hc
  rw [csvRowLine_eq] at hc
  rcases mem_intercalate_comma _ c hc with h1 | ⟨x, hx, hcx⟩
  · rw [h1]; decide
  · obtain ⟨f, hf, rfl⟩ := List.mem_map.mp hx
    rw [quoteWrap] at hcx
    rcases List.mem_cons.mp hcx with h2 | h3
    · rw [h2]; decide
    · rcases List.mem_append.mp h3 with h4 | h5
      · exact (escVals_safe h f hf c h4).2
      · simp only [List.mem_singleton] at h5
        rw [h5]; decide

theorem csvRowLine_ne_nil (t : Task) : csvRowLine t ≠ [] := by
  rw [csvRowLine_eq, escVals, headerNames]
  simp only [List.map_cons, List.map_nil]
  rw [intercalate_cons2]
  simp [quoteWrap]

theorem splitCSVRaw_inq : ∀ (f : List Char) (rest cur : List Char),
    (∀ c ∈ f, c ≠ '"') →
    splitCSVRaw (f ++ rest) cur true = splitCSVRaw rest (cur ++ f) true
  | [], rest, cur, _ => by simp
  | c :: f, rest, cur, h => by
    have hc : c ≠ '"' := h c (by simp)
    have step : splitCSVRaw ((c :: f) ++ rest) cur true
        = splitCSVRaw (f ++ rest) (cur ++ [c]) true := by
      by_cases hcm : c = ',' <;> simp [splitCSVRaw, hc, hcm]
    rw [step, splitCSVRaw_inq f rest (cur ++ [c]) (fun d hd => h d (by simp [hd])),
      List.append_assoc]
    rfl

theorem splitCSVRaw_field (f : List Char) (rest cur : List Char)
    (h : ∀ c ∈ f, c ≠ '"') :
    splitCSVRaw (quoteWrap f ++ rest) cur false = splitCSVRaw rest (cur ++ f) false := by
  have step1 : splitCSVRaw (quoteWrap f ++ rest) cur false
      = splitCSVRaw ((f ++ ['"']) ++ rest) cur true := rfl
  rw [step1, List.append_assoc, List.singleton_append,
    splitCSVRaw_inq f ('"' :: rest) cur h]
  rfl

theorem splitCSVRaw_fields : ∀ (fs : List (List Char)), fs ≠ [] →
    (∀ f ∈ fs, ∀ c ∈ f, c ≠ '"') →
    splitCSVRaw (List.intercalate [','] (fs.map quoteWrap)) [] false = fs
  | [], hne, _ => absurd rfl hne
  | [f], _, hq => by
    rw [List.map_cons, List.map_nil, intercalate_single]
    have hs := splitCSVRaw_field f [] [] (hq f (by simp))
    simp only [List.append_nil, List.nil_append] at hs
    rw [hs]
    rfl
  | f :: g :: t, _, hq => by
    rw [List.map_cons, List.map_cons, intercalate_cons2, List.append_assoc,
      splitCSVRaw_field f _ [] (hq f (by simp)), List.nil_append, List.singleton_append]
    have step : splitCSVRaw
        (',' :: List.intercalate [','] (quoteWrap g :: List.map quoteWrap t)) f false
        = f :: splitCSVRaw (List.intercalate [','] (quoteWrap g :: List.map quoteWrap t))
            [] false := rfl
    rw [step]
    have hrec := splitCSVRaw_fields (g :: t) (by simp)
      (fun x hx c hc => hq x (List.mem_cons_of_mem f hx) c hc)
    rw [List.map_cons] at hrec
    rw [hrec]

theorem rewrapPart_eq (p : List Char) : rewrapPart p = quoteWrap p := by
  rw [rewrapPart, quoteWrap]
  by_cases h : p = []
  · rw [if_pos h, h]
    rfl
  · rw [if_neg h]

theorem splitCSVLine_row {t : Task} (h : exportableTask t = true) :
    splitCSVLine (csvRowLine t) = (escVals t).map quoteWrap := by
  rw [splitCSVLine, csvRowLine_eq,
    splitCSVRaw_fields (escVals t)
      (by rw [escVals, headerNames]; simp)
      (fun f hf c hc => (escVals_safe h f hf c hc).1)]
  exact List.map_congr_left (fun f _ => rewrapPart_eq f)

theorem hexVal_hexDigitChar (n : Nat) (h : n < 16) : hexVal (hexDigitChar n) = some n := by
  interval_cases n <;> decide

theorem jsonStringBody_u (d1 d2 d3 d4 : Char) (x1 x2 x3 x4 : Nat) (rest : List Char)
    (e1 : hexVal d1 = some x1) (e2 : hexVal d2 = some x2)
    (e3 : hexVal d3 = some x3) (e4 : hexVal d4 = some x4) :
    jsonStringBody ('\\' :: 'u' :: d1 :: d2 :: d3 :: d4 :: rest) =
      if ((x1 * 16 + x2) * 16 + x3) * 16 + x4 < 55296 ∨
          (57343 < ((x1 * 16 + x2) * 16 + x3) * 16 + x4 ∧
            ((x1 * 16 + x2) * 16 + x3) * 16 + x4 < 1114112) then
        (jsonStringBody rest).map (fun l => Char.ofNat (((x1 * 16 + x2) * 16 + x3) * 16 + x4) :: l)
      else none := by
  rw [jsonStringBody.eq_def]
  simp only [e1, e2, e3, e4]
  rw [if_neg (by decide : ¬ ('\\' : Char) = '"'), if_pos trivial]

theorem jsonStringBody_escChunk {c : Char} (hc : c ≠ '"') (rest : List Char) :
    jsonStringBody (jsonEscapeChar c ++ rest) = (jsonStringBody rest).map (fun l => c :: l) := by
  by_cases h2 : c = '\\'
  · subst h2
    rfl
  by_cases h3 : c = '\n'
  · subst h3
    rfl
  by_cases h4 : c = '\r'
  · subst h4
    rfl
  by_cases h5 : c = '\t'
  · subst h5
    rfl
  by_cases h6 : c = Char.ofNat 8
  · subst h6
    rfl
  by_cases h7 : c = Char.ofNat 12
  · subst h7
    rfl
  by_cases h8 : c.toNat < 32
  · rw [jsonEscapeChar, if_neg hc, if_neg h2, if_neg h3, if_neg h4, if_neg h5, if_neg h6,
      if_neg h7, if_pos h8]
    show jsonStringBody ('\\' :: 'u' :: '0' :: '0' ::
        hexDigitChar (c.toNat / 16) :: hexDigitChar (c.toNat % 16) :: rest) = _
    rw [jsonStringBody_u '0' '0' (hexDigitChar (c.toNat / 16)) (hexDigitChar (c.toNat % 16))
      0 0 (c.toNat / 16) (c.toNat % 16) rest (by decide) (by decide)
      (hexVal_hexDigitChar _ (by omega)) (hexVal_hexDigitChar _ (by omega))]
    have hn : ((0 * 16 + 0) * 16 + c.toNat / 16) * 16 + c.toNat % 16 = c.toNat := by omega
    rw [hn, if_pos (Or.inl (by omega : c.toNat < 55296)), Char.ofNat_toNat]
  · rw [jsonEscapeChar, if_neg hc, if_neg h2, if_neg h3, if_neg h4, if_neg h5, if_neg h6,
      if_neg h7, if_neg h8, List.singleton_append, jsonStringBody.eq_def]
    simp only [hc, h2, h8, if_false, if_neg]

theorem parse_escape : ∀ l : List Char, (∀ c ∈ l, c ≠ '"') →
    jsonStringBody (l.flatMap jsonEscapeChar ++ ['"']) = some l
  | [], _ => rfl
  | c :: l, h => by
    rw [List.flatMap_cons, List.append_assoc, jsonStringBody_escChunk (h c (by simp)),
      parse_escape l (fun d hd => h d (by simp [hd]))]
    rfl

theorem jsonParseStr_escaped (v : List Char) (h : ∀ c ∈ v, c ≠ '"') :
    jsonParseStr (quoteWrap (v.flatMap jsonEscapeChar)) = some v := by
  show jsonStringBody (v.flatMap jsonEscapeChar ++ ['"']) = some v
  exact parse_escape v h

theorem rowEntriesGo_zip : ∀ (names vals parts : List (List Char)) (n : Nat),
    names.length = vals.length →
    (∀ j, j < names.length →
      jsonParseStr (parts.getD (n + j) ['"', '"']) = some (vals.getD j [])) →
    rowEntriesGo parts n names = some (names.zip vals)
  | [], _, _, _, _, _ => rfl
  | nm :: names, vals, parts, n, hlen, hparse => by
    match vals with
    | [] => simp at hlen
    | v :: vals =>
      rw [rowEntriesGo]
      have h0 := hparse 0 (by simp)
      rw [Nat.add_zero] at h0
      rw [h0,
        rowEntriesGo_zip names vals parts (n + 1) (by simpa using hlen)
          (fun j hj => by
            have := hparse (j + 1) (by simpa using Nat.succ_lt_succ hj)
            rw [show n + (j + 1) = n + 1 + j by omega] at this
            simpa using this)]
      rfl

theorem rowEntries_row {t : Task} (h : exportableTask t = true) :
    rowEntries (headerNames.map String.data) (csvRowLine t) =
      some ((headerNames.map String.data).zip (fieldVals t)) := by
  rw [rowEntries, splitCSVLine_row h]
  apply rowEntriesGo_zip
  · simp [fieldVals]
  · intro j hj
    have hj9 : j < (escVals t).length := by
      simpa [escVals] using hj
    have hj9f : j < (fieldVals t).length := by
      simpa [fieldVals] using hj
    rw [Nat.zero_add, List.getD_eq_getElem?_getD, List.getElem?_map,
      List.getElem?_eq_getElem hj9]
    simp only [Option.map_some', Option.getD_some]
    have heq : (escVals t)[j] = ((fieldVals t)[j]).flatMap jsonEscapeChar := by
      simp only [escVals, fieldVals, List.getElem_map]
    rw [heq, jsonParseStr_escaped ((fieldVals t)[j])
        (fun c hc => fieldVals_quoteFree h _ (List.getElem_mem hj9f) c hc),
      List.getD_eq_getElem?_getD, List.getElem?_eq_getElem hj9f]
    rfl

theorem taskOfObj_roundtrip {t : Task} (h : exportableTask t = true) :
    taskOfObj ((headerNames.map String.data).zip (fieldVals t)) = t := by
  rw [exportableTask] at h
  simp only [Bool.and_eq_true] at h
  obtain ⟨⟨⟨⟨⟨⟨⟨⟨h1, h2⟩, h3⟩, h4⟩, h5⟩, h6⟩, h7⟩, h8⟩, h9⟩ := h
  obtain ⟨s1, e1, _, o1⟩ := presentQuoteFree_some h1
  obtain ⟨s2, e2, _, o2⟩ := presentQuoteFree_some h2
  obtain ⟨s3, e3, _, o3⟩ := presentQuoteFree_some h3
  obtain ⟨s4, e4, _, o4⟩ := presentQuoteFree_some h4
  obtain ⟨s5, e5, _, o5⟩ := presentQuoteFree_some h5
  obtain ⟨s6, e6, _, o6⟩ := presentQuoteFree_some h6
  obtain ⟨s7, e7, _, o7⟩ := presentQuoteFree_some h7
  obtain ⟨s8, e8, _, o8⟩ := presentQuoteFree_some h8
  obtain ⟨s9, e9, _, o9⟩ := presentQuoteFree_some h9
  cases t with
  | mk tid tti tde tas tpr tst tdu tcr tup =>
    simp only at e1 e2 e3 e4 e5 e6 e7 e8 e9
    subst e1 e2 e3 e4 e5 e6 e7 e8 e9
    simp only [fieldVals, headerNames, taskField, List.map_cons, List.map_nil]
    simp only [taskOfObj, objGet, List.zip, List.zipWith, List.foldl]
    simp [jsOr_some, strMkData]

theorem rows_mapM : ∀ tasks : List Task, (∀ t ∈ tasks, exportableTask t = true) →
    (tasks.map csvRowLine).mapM (rowEntries (headerNames.map String.data)) =
      some (tasks.map (fun t => (headerNames.map String.data).zip (fieldVals t)))
  | [], _ => rfl
  | t :: ts, h => by
    rw [List.map_cons, List.mapM_cons, rowEntries_row (h t (by simp)),
      rows_mapM ts (fun x hx => h x (by simp [hx]))]
    rfl

theorem mapInit_congr_id {f : List Char → List Char} :
    ∀ L : List (List Char), (∀ l ∈ L, f l = l) → mapInit f L = L
  | [], _ => rfl
  | [_], _ => rfl
  | x :: y :: t, h => by
    show f x :: mapInit f (y :: t) = x :: y :: t
    rw [h x (by simp),
      mapInit_congr_id (y :: t) (fun l hl => h l (List.mem_cons_of_mem x hl))]

theorem stripTrailingCR_id {l : List Char} (h : '\r' ∉ l) : stripTrailingCR l = l := by
  rw [stripTrailingCR]
  by_cases hc : l.getLast? = some '\r'
  · exact absurd (List.mem_of_mem_getLast? hc) h
  · rw [if_neg hc]

theorem splitLines_export (tasks : List Task)
    (hclean : ∀ t ∈ tasks, exportableTask t = true) :
    splitLines (exportCSV tasks) = csvHeaderLine :: tasks.map csvRowLine := by
  have hnl : ∀ l ∈ csvHeaderLine :: tasks.map csvRowLine, ('\n' : Char) ∉ l := by
    intro l hl
    rcases List.mem_cons.mp hl with h | h
    · subst h
      decide
    · obtain ⟨t', ht', rfl⟩ := List.mem_map.mp h
      intro hmem
      exact absurd (csvRowLine_all32 (hclean t' ht') _ hmem) (by decide)
  rw [splitLines, exportCSV,
    List.splitOn_intercalate (csvHeaderLine :: tasks.map csvRowLine) '\n' hnl (by simp)]
  apply mapInit_congr_id
  intro l hl
  apply stripTrailingCR_id
  rcases List.mem_cons.mp hl with h | h
  · subst h
    decide
  · obtain ⟨t', ht', rfl⟩ := List.mem_map.mp h
    intro hmem
    exact absurd (csvRowLine_all32 (hclean t' ht') _ hmem) (by decide)

/-! ## C2 and C8 -/

/-- C2 counterexample: a collection containing a task whose title holds a
quote character does not round-trip: `JSON.stringify` escapes the quote as
`\"`, but `splitCSVLine` treats the escaped quote as a mode toggle and drops
it, so the re-imported collection differs from the original. -/
theorem csv_roundtrip_quote_counterexample :
    (importCSV (exportCSV [quoteTask]) []) ≠ Except.ok [quoteTask] := by
  decide

/-- C2 amended: for every non-empty collection whose tasks have all nine
schema fields present (not `undefined`) and free of the quote character,
exporting and then importing into an empty collection reproduces the
collection exactly — in particular `id`, `createdAt` and `updatedAt` are
preserved verbatim.  Backslashes and control characters (including raw
newlines) are fine: `JSON.stringify` escapes them and `JSON.parse` restores
them; only a raw quote is destroyed by the quote-toggling scan. -/
theorem csv_roundtrip_quote_free (tasks : List Task) (hne : tasks ≠ [])
    (hclean : ∀ t ∈ tasks, exportableTask t = true) :
    (importCSV (exportCSV tasks) []) = Except.ok tasks := by
  have hfil : (splitLines (exportCSV tasks)).filter (fun l => !l.isEmpty) =
      csvHeaderLine :: tasks.map csvRowLine := by
    rw [splitLines_export tasks hclean]
    apply List.filter_eq_self.mpr
    intro l hl
    rcases List.mem_cons.mp hl with h | h
    · subst h
      decide
    · obtain ⟨t', ht', rfl⟩ := List.mem_map.mp h
      simpa using csvRowLine_ne_nil t' 
  have hlen : ¬ (csvHeaderLine :: tasks.map csvRowLine).length < 2 := by
    have := List.length_pos.mpr hne
    simp only [List.length_cons, List.length_map]
    omega
  have hhd : (((csvHeaderLine :: tasks.map csvRowLine).headD []).splitOn ',').map
      removeQuotes = headerNames.map String.data := by
    rw [List.headD_cons]
    decide
  simp only [importCSV, hfil, hlen, if_false, hhd, List.drop_one, List.tail_cons,
    rows_mapM tasks hclean]
  rw [List.map_map]
  rw [List.map_congr_left
    (fun t ht => by
      simp only [Function.comp_apply]
      exact taskOfObj_roundtrip (hclean t ht))]
  simp

/-- C2 amended witness: a concrete two-task collection — one task with a
backslash in its title and a raw newline in its description — round-trips. -/
theorem csv_roundtrip_quote_free_witness :
    (importCSV (exportCSV [baseTask, escTask]) []) = Except.ok [baseTask, escTask] :=
  csv_roundtrip_quote_free [baseTask, escTask] (by decide) (by decide)

/-- C8: `splitCSVLine` keeps a quoted delimiter inside its field (the scan
toggles the in-quotes mode on quotes and only splits on delimiters outside
it), and a task whose description contains a comma round-trips through
export and import with the comma intact and field boundaries correct. -/
theorem csv_quoting_comma_roundtrip :
    splitCSVLine "\"a,b\",\"c\"".data = ["\"a,b\"".data, "\"c\"".data] ∧
    (importCSV (exportCSV [commaTask]) []) = Except.ok [commaTask] := by
  constructor
  · decide
  · decide

end TTD
